import Mathlib

/-!
# StencilForge — verification of the geometry/mesh pipeline specification

Shallow embedding of the Python sources under `src/stencilforge/` and proofs
of the specification claims about them.  Python floats are modelled by `ℚ`
(or `ℝ` where trigonometric analysis is needed); distances that Python
compares through `math.sqrt` are compared through their squares, which
preserves every comparison; shapely geometries are modelled by finite cell
sets where a claim needs concrete geometry, and by abstract data where only
control flow is at stake.
-/

namespace StencilForge

/-! ## Quality-mode gate for the watertight voxel rebuild
Embeds `_should_attempt_watertight` (src/stencilforge/pipeline/engine.py,
lines 431-442).  `sfmesh_quality_mode` is one of "fast" | "auto" |
"watertight"; the face count of a mesh is a natural number, so the Python
test `face_count <= 0` becomes `faceCount = 0`. -/

inductive QualityMode where
  | fast
  | auto
  | watertight
deriving DecidableEq, Repr

/-- Embedding of `_should_attempt_watertight(mesh, cfg)`: the branches are in
the source's order (fast check, then zero faces, then face limit, then the
auto/watertight split). -/
def shouldAttemptWatertight (mode : QualityMode) (faceCount faceLimit : ℕ)
    (isWatertight : Bool) : Bool :=
  if mode = QualityMode.fast then false
  else if faceCount = 0 then false
  else if faceLimit < faceCount then false
  else if mode = QualityMode.auto then !isWatertight
  else true

/-! ## Model-engine factory
Embeds `_ENGINES` and `get_model_engine` (engine.py, lines 234-250).
Python strings are modelled as `List Char` so that the normalisation
computes in the kernel; `str.strip` removes leading/trailing whitespace,
`str.lower` lowercases ASCII letters (the backend keys are ASCII).  The
dict lookup over `_ENGINES` is an if-chain over the three keys, and
`sorted(_ENGINES)` is `["cadquery", "sfmesh", "trimesh"]`, giving the
fixed error text. -/

inductive EngineKind where
  | cadquery
  | trimesh
  | sfmesh
deriving DecidableEq, Repr

def isSpaceChar (c : Char) : Bool :=
  c = ' ' || c = '\t' || c = '\n' || c = '\r'

def lowerChar (c : Char) : Char :=
  if 'A' ≤ c ∧ c ≤ 'Z' then Char.ofNat (c.toNat + 32) else c

/-- `name.strip().lower()` on an ASCII backend name. -/
def pyNormalize (name : List Char) : List Char :=
  (((name.dropWhile isSpaceChar).reverse.dropWhile isSpaceChar).reverse).map lowerChar

def lookupEngine (key : List Char) : Option EngineKind :=
  if key = "cadquery".toList then some EngineKind.cadquery
  else if key = "trimesh".toList then some EngineKind.trimesh
  else if key = "sfmesh".toList then some EngineKind.sfmesh
  else none

/-- The deprecation remap: key "sfmesh" is replaced by "trimesh" before the
table lookup (engine.py, lines 243-245). -/
def remapKey (key : List Char) : List Char :=
  if key = "sfmesh".toList then "trimesh".toList else key

def getModelEngine (name : List Char) : Except (List Char) EngineKind :=
  match lookupEngine (remapKey (pyNormalize name)) with
  | some engine => Except.ok engine
  | none =>
      Except.error
        ("Unsupported model backend ".toList ++ name ++
          ". Supported: cadquery, sfmesh, trimesh".toList)

/-! ## Post-export validation
Embeds the tail of `generate_stencil` (core.py, lines 283-307): the empty
mesh check before the write, the file-size check after the write, and the
reload-and-recount check.  The reload either fails (any exception while
loading) or yields a face count; a reload failure and a zero face count
both surface as the wrapping `ValueError`.  Watertightness is only logged
(line 286-288), which the `watertight` argument makes explicit. -/

def exportValidate (meshFaces : ℕ) (watertight : Bool) (writeSize : ℤ)
    (reload : Except String ℕ) : Except String Unit :=
  if meshFaces = 0 then Except.error "Generated mesh is empty; check outline/paste geometry."
  else
    -- `mesh.export(...)` happens here; `watertight` is only logged.
    let _ := watertight
    if writeSize ≤ 0 then Except.error "Exported STL file is empty."
    else
      match reload with
      | Except.error exc => Except.error ("Failed to validate exported STL: " ++ exc)
      | Except.ok faceCount =>
          if faceCount = 0 then
            Except.error "Failed to validate exported STL: Exported STL has no faces; check geometry."
          else Except.ok ()

/-- Whether an `Except` result is an error. -/
def isError {ε α : Type} (r : Except ε α) : Bool :=
  match r with
  | Except.error _ => true
  | Except.ok _ => false

/-! ## QFN pad regeneration
Embeds the candidate filter `_detect_qfn_pads` (qfn.py, lines 49-77), the
control flow of `regenerate_qfn_paste` (qfn.py, lines 15-29) and the
wrapping try/except in `generate_stencil` (core.py, lines 68-72).  A
shapely polygon enters the filter only through its area and the metrics of
its minimum rotated rectangle, so a polygon is modelled by exactly those
numbers; `_polygon_rect_metrics` may fail (`None`), modelled by `Option`.
The grouping, scoring and regeneration stages appear as stage functions
that may raise (`Except`), which is all `regenerate_qfn_paste` observes of
them. -/

structure QPolyData where
  area : ℚ
  /-- `(rect_area, long_side, short_side, angle)` from `_polygon_rect_metrics`. -/
  rectMetrics : Option (ℚ × ℚ × ℚ × ℚ)
deriving DecidableEq, Repr

/-- One loop iteration of `_detect_qfn_pads`: whether `poly` survives the
candidate filter (rectangularity ≥ 0.85, aspect ratio within [1.2, 6.0],
short side ≤ `qfn_max_pad_width_mm`). -/
def padFilter (maxPadWidth : ℚ) (p : QPolyData) : Bool :=
  match p.rectMetrics with
  | none => false
  | some (rectArea, longSide, shortSide, _angle) =>
      if rectArea ≤ 0 then false
      else
        if p.area / rectArea < 85/100 then false
        else if ¬ (12/10 ≤ (if 0 < shortSide then longSide / shortSide else 0) ∧
                    (if 0 < shortSide then longSide / shortSide else 0) ≤ 6) then false
        else if maxPadWidth < shortSide then false
        else true

/-- `_detect_qfn_pads`: keep the filtered candidates, abort (`None`) when
fewer than 12 remain. -/
def detectQfnPads (maxPadWidth : ℚ) (polys : List QPolyData) : Option (List QPolyData) :=
  if (polys.filter (padFilter maxPadWidth)).length < 12 then none
  else some (polys.filter (padFilter maxPadWidth))

/-- Control flow of `regenerate_qfn_paste`: each early `return geometry`
becomes `Except.ok geometry`; an uncaught Python exception in a stage
propagates as `Except.error`. -/
def regenerateQfnPaste {G Grp : Type}
    (maxPadWidth threshold : ℚ)
    (flattenRes : Except String (List QPolyData))
    (build : List QPolyData → Except String (Option Grp × ℚ))
    (regen : Grp → Except String (Option G))
    (geometry : G) : Except String G :=
  match flattenRes with
  | Except.error e => Except.error e
  | Except.ok polys =>
      if polys = [] then Except.ok geometry
      else
        match detectQfnPads maxPadWidth polys with
        | none => Except.ok geometry
        | some pads =>
            match build pads with
            | Except.error e => Except.error e
            | Except.ok (qfnOpt, score) =>
                match qfnOpt with
                | none => Except.ok geometry
                | some qfn =>
                    if score < threshold then Except.ok geometry
                    else
                      match regen qfn with
                      | Except.error e => Except.error e
                      | Except.ok none => Except.ok geometry
                      | Except.ok (some r) => Except.ok r

/-- A concrete 1×2 mm rectangular pad polygon: area 2, minimum rotated
rectangle of area 2 with sides 2 and 1 at angle 0. -/
def samplePad : QPolyData := ⟨2, some (2, 2, 1, 0)⟩

/-- Twelve copies of `samplePad` — enough candidates for QFN detection. -/
def samplePads12 : List QPolyData :=
  [samplePad, samplePad, samplePad, samplePad, samplePad, samplePad,
   samplePad, samplePad, samplePad, samplePad, samplePad, samplePad]

/-- Eleven copies of `samplePad` — one candidate short of the minimum. -/
def samplePads11 : List QPolyData :=
  [samplePad, samplePad, samplePad, samplePad, samplePad, samplePad,
   samplePad, samplePad, samplePad, samplePad, samplePad]

/-- The QFN step of `generate_stencil` (core.py, lines 68-72): the call is
wrapped in try/except, so an error leaves the paste geometry unchanged. -/
def coreQfnStep {G : Type} (enabled : Bool) (geometry : G)
    (call : G → Except String G) : G :=
  if enabled then
    match call geometry with
    | Except.ok result => result
    | Except.error _ => geometry
  else geometry

/-! ## Gap bridging
Embeds `RobustOutlineExtractor._bridge_gaps` (geometry/outline.py, lines
265-314).  Points are ℚ pairs; `_segment_length` takes a square root and
its results are only ever *compared* (to each other and to the gap
tolerance), so the embedding carries squared distances and compares them
to the squared tolerance `tol2`, which preserves every comparison.  The
Python `key in used` test on line 305 compares a point pair against a set
of integer indices and is therefore always false; it is omitted. -/

abbrev Pt := ℚ × ℚ
abbrev Seg := Pt × Pt

/-- Squared Euclidean distance (`_segment_length` squared). -/
def dist2 (p q : Pt) : ℚ :=
  (p.1 - q.1) * (p.1 - q.1) + (p.2 - q.2) * (p.2 - q.2)

/-- The endpoint list: both endpoints of every segment, in segment order. -/
def endpointsOf (segs : List Seg) : List Pt :=
  segs.foldr (fun s acc => s.1 :: s.2 :: acc) []

/-- The inner scan of the nearest-endpoint loop: `j` indexes the current
candidate, `best` the best `(index, squared distance)` so far; a candidate
replaces the best only when strictly closer, so the first minimiser wins,
as in the Python loop. -/
def nearestScan (p : Pt) (i : ℕ) : List Pt → ℕ → Option (ℕ × ℚ) → Option (ℕ × ℚ)
  | [], _, best => best
  | q :: rest, j, best =>
      let best' :=
        if j = i then best
        else
          match best with
          | none => some (j, dist2 p q)
          | some (bj, bd) => if dist2 p q < bd then some (j, dist2 p q) else some (bj, bd)
      nearestScan p i rest (j + 1) best'

/-- The nearest other endpoint of endpoint `i` (index and squared
distance); `none` when `i` is out of range or there is no other endpoint
(the Python `(-1, 0.0)` marker). -/
def nearestIdx (pts : List Pt) (i : ℕ) : Option (ℕ × ℚ) :=
  match pts[i]? with
  | none => none
  | some p => nearestScan p i pts 0 none

/-- The `nearest` array of `_bridge_gaps`. -/
def nearestList (pts : List Pt) : List (Option (ℕ × ℚ)) :=
  (List.range pts.length).map (nearestIdx pts)

/-- The main pairing loop of `_bridge_gaps` over the enumerated `nearest`
array: mutually nearest pairs within tolerance are bridged, their indices
marked used, and the loop breaks once the link cap is reached. -/
def bridgeLoop (pts : List Pt) (nearest : List (Option (ℕ × ℚ))) (tol2 : ℚ)
    (maxLinks : ℤ) : List (ℕ × Option (ℕ × ℚ)) → List ℕ → List Seg → List Seg
  | [], _used, bridged => bridged
  | (i, entry) :: todo, used, bridged =>
      match entry with
      | none => bridgeLoop pts nearest tol2 maxLinks todo used bridged
      | some (j, d) =>
          if i ∈ used ∨ j ∈ used then bridgeLoop pts nearest tol2 maxLinks todo used bridged
          else if tol2 < d then bridgeLoop pts nearest tol2 maxLinks todo used bridged
          else
            match nearest[j]? with
            | some (some (backIdx, backDist)) =>
                if backIdx ≠ i then bridgeLoop pts nearest tol2 maxLinks todo used bridged
                else if tol2 < backDist then
                  bridgeLoop pts nearest tol2 maxLinks todo used bridged
                else
                  match pts[i]?, pts[j]? with
                  | some p1, some p2 =>
                      if 0 ≤ maxLinks ∧ maxLinks ≤ (bridged.length : ℤ) + 1 then
                        bridged ++ [(p1, p2)]
                      else
                        bridgeLoop pts nearest tol2 maxLinks todo (i :: j :: used)
                          (bridged ++ [(p1, p2)])
                  | _, _ => bridgeLoop pts nearest tol2 maxLinks todo used bridged
            | _ => bridgeLoop pts nearest tol2 maxLinks todo used bridged

/-- `enumerate(..)` over a list, starting at index `n`. -/
def enumOf {α : Type} : List α → ℕ → List (ℕ × α)
  | [], _ => []
  | a :: l, n => (n, a) :: enumOf l (n + 1)

/-- `_bridge_gaps(segments)`: returns `(segments (+ bridges), bridges)`.
`tol2` is the squared `gap_bridge_mm`, `maxLinks` is
`gap_bridge_max_links`. -/
def bridgeGaps (tol2 : ℚ) (maxLinks : ℤ) (segs : List Seg) : List Seg × List Seg :=
  if segs = [] then (segs, [])
  else
    let pts := endpointsOf segs
    if pts.length < 2 then (segs, [])
    else
      let nearest := nearestList pts
      let bridged := bridgeLoop pts nearest tol2 maxLinks (enumOf nearest 0) [] []
      if bridged = [] then (segs, []) else (segs ++ bridged, bridged)

/-! ## Watertight rebuild bounds fit
Embeds `_fit_mesh_to_bounds` and the tail of `_rebuild_watertight_single`
(engine.py, lines 564-590 and 723-733).  A mesh enters these functions
only through its vertex array, modelled as a list of ℚ triples; the
voxelize → fill → marching-cubes pipeline (external trimesh code, with
`voxel.transform` already applied) appears as an oracle producing either
the rebuilt vertex list or an exception. -/

abbrev Vec3 := ℚ × ℚ × ℚ

def xsOf (vs : List Vec3) : List ℚ := vs.map (fun v => v.1)
def ysOf (vs : List Vec3) : List ℚ := vs.map (fun v => v.2.1)
def zsOf (vs : List Vec3) : List ℚ := vs.map (fun v => v.2.2)

def listMin : List ℚ → ℚ
  | [] => 0
  | x :: t => t.foldl min x

def listMax : List ℚ → ℚ
  | [] => 0
  | x :: t => t.foldl max x

/-- `mesh.bounds`: per-axis minimum and maximum of the vertices. -/
def meshBounds (vs : List Vec3) : Vec3 × Vec3 :=
  ((listMin (xsOf vs), listMin (ysOf vs), listMin (zsOf vs)),
   (listMax (xsOf vs), listMax (ysOf vs), listMax (zsOf vs)))

/-- The `1e-12` guard of `_fit_mesh_to_bounds`. -/
def eps12 : ℚ := 1 / 1000000000000

/-- Per-axis scale factor: applied only when the current extent exceeds
1e-12 and the target extent is positive, otherwise 1. -/
def fitScale (curLo curHi tgtLo tgtHi : ℚ) : ℚ :=
  if eps12 < curHi - curLo ∧ 0 < tgtHi - tgtLo then (tgtHi - tgtLo) / (curHi - curLo) else 1

/-- `_fit_mesh_to_bounds(mesh, target_bounds)`:
`vertices = (vertices - cur_lo) * scale + target_lo`, componentwise. -/
def fitMeshToBounds (vs : List Vec3) (target : Vec3 × Vec3) : List Vec3 :=
  if vs = [] then vs
  else
    let b := meshBounds vs
    let sx := fitScale b.1.1 b.2.1 target.1.1 target.2.1
    let sy := fitScale b.1.2.1 b.2.2.1 target.1.2.1 target.2.2.1
    let sz := fitScale b.1.2.2 b.2.2.2 target.1.2.2 target.2.2.2
    vs.map (fun v =>
      ((v.1 - b.1.1) * sx + target.1.1,
       (v.2.1 - b.1.2.1) * sy + target.1.2.1,
       (v.2.2 - b.1.2.2) * sz + target.1.2.2))

/-- Control flow of `_rebuild_watertight_single`: capture the input
bounds, run the voxel rebuild (oracle), fall back to the input mesh on
exception or empty output, otherwise fit the rebuilt mesh to the captured
bounds. -/
def rebuildWatertightSingle (inputVerts : List Vec3)
    (voxelResult : Except Unit (List Vec3)) : List Vec3 :=
  if inputVerts = [] then inputVerts
  else
    match voxelResult with
    | Except.error _ => inputVerts
    | Except.ok rebuilt =>
        if rebuilt = [] then inputVerts
        else fitMeshToBounds rebuilt (meshBounds inputVerts)

/-! ## Triangle-keeping filters of the extrusion paths
Embeds the triangle filter of `_triangulate_polygon_robust`
(pipeline/geometry.py, lines 180-189 and 194-202) and of
`_extrude_polygon_with_cdt` (pipeline/engine.py, line 298).  The filters
see a shapely geometry only through `area`, `covers` and
`representative_point`; a geometry is modelled as a finite set of unit
grid cells, where `covers` is cell containment, `area` counts distinct
cells, and the representative point is the first cell (shapely guarantees
only that it lies inside the geometry).  The candidate triangle list is
whatever `constrained_delaunay_triangles` returned, so the filters are
quantified over arbitrary triangle lists. -/

structure GridGeom where
  cells : List (ℤ × ℤ)
deriving DecidableEq, Repr

def GridGeom.area (g : GridGeom) : ℕ := g.cells.dedup.length

def GridGeom.coversCell (g : GridGeom) (c : ℤ × ℤ) : Bool := g.cells.contains c

/-- `a.covers(b)` for cell regions: every cell of `b` lies in `a`. -/
def GridGeom.covers (a b : GridGeom) : Bool := b.cells.all a.coversCell

/-- `representative_point()`: some point inside the geometry. -/
def GridGeom.repPoint (g : GridGeom) : Option (ℤ × ℤ) := g.cells.head?

/-- geometry.py, lines 182-188: keep a CDT triangle iff its area is
positive and the polygon covers the *whole* triangle. -/
def robustKeep (poly tri : GridGeom) : Bool :=
  decide (0 < tri.area) && poly.covers tri

def robustKeptTriangles (poly : GridGeom) (tris : List GridGeom) : List GridGeom :=
  tris.filter (robustKeep poly)

/-- engine.py, line 298: keep a CDT triangle iff its area is positive and
the polygon covers its *representative point*. -/
def sfmeshKeep (poly tri : GridGeom) : Bool :=
  decide (0 < tri.area) &&
    (match tri.repPoint with
     | some p => poly.coversCell p
     | none => false)

def sfmeshKeptTriangles (poly : GridGeom) (tris : List GridGeom) : List GridGeom :=
  tris.filter (sfmeshKeep poly)

/-! ## Even-odd outline fill
Embeds `OutlineBuilder._outline_evenodd` (geometry/outline.py, lines
800-836).  A candidate loop polygon is a finite cell set
(`Finset (ℤ × ℤ)`) with its shapely `representative_point()` carried as
data; `unary_union` is set union, `difference` is set difference, `area`
is the cell count.  The zero-width `buffer(0)` validity repair is the
identity on set-valued regions.  Python's stable `sort(key=area,
reverse=True)` is the stable descending insertion sort `sortDesc`. -/

structure CPoly where
  cells : Finset (ℤ × ℤ)
  rep : ℤ × ℤ
deriving DecidableEq

def CPoly.area (p : CPoly) : ℕ := p.cells.card

/-- Stable insertion keeping equal-area elements in encounter order, as
Python's stable sort does. -/
def insertDesc (a : CPoly) : List CPoly → List CPoly
  | [] => [a]
  | b :: l => if b.area ≤ a.area then a :: b :: l else b :: insertDesc a l

def sortDesc : List CPoly → List CPoly
  | [] => []
  | a :: l => insertDesc a (sortDesc l)

/-- `parents[i]`: the first earlier (larger-area) candidate containing the
representative point of candidate `i` (outline.py, lines 814-820). -/
def parentsOf (cs : List CPoly) : List (Option ℕ) :=
  (List.range cs.length).map (fun i =>
    match cs[i]? with
    | none => none
    | some ci =>
        (List.range i).find? (fun j =>
          match cs[j]? with
          | some cj => decide (ci.rep ∈ cj.cells)
          | none => false))

/-- The while-loop on lines 822-828 following parent links; the fuel is
the list length, enough because every parent index is smaller. -/
def depthOf (parents : List (Option ℕ)) : ℕ → ℕ → ℕ
  | 0, _ => 0
  | fuel + 1, i =>
      match parents[i]? with
      | some (some p) => depthOf parents fuel p + 1
      | _ => 0

def depthsOf (parents : List (Option ℕ)) : List ℕ :=
  (List.range parents.length).map (depthOf parents parents.length)

def unionAll (gs : List (Finset (ℤ × ℤ))) : Finset (ℤ × ℤ) :=
  gs.foldr (· ∪ ·) ∅

/-- The even-depth candidates of the sorted cleaned list. -/
def evensOf (cs : List CPoly) : List CPoly :=
  ((cs.zip (depthsOf (parentsOf cs))).filter (fun gd => gd.2 % 2 = 0)).map (fun gd => gd.1)

/-- The odd-depth candidates of the sorted cleaned list. -/
def oddsOf (cs : List CPoly) : List CPoly :=
  ((cs.zip (depthsOf (parentsOf cs))).filter (fun gd => gd.2 % 2 = 1)).map (fun gd => gd.1)

/-- `_outline_evenodd(polygons)`. -/
def outlineEvenodd (polygons : List CPoly) : Option (Finset (ℤ × ℤ)) :=
  let cleaned := polygons.filter (fun p => !decide (p.cells = ∅))
  if cleaned = [] then none
  else
    let sorted := sortDesc cleaned
    let evens := evensOf sorted
    let odds := oddsOf sorted
    if evens = [] then none
    else if odds = [] then some (unionAll (evens.map CPoly.cells))
    else some (unionAll (evens.map CPoly.cells) \ unionAll (odds.map CPoly.cells))

/-- An axis-aligned filled square of cells `[lo, lo+n) × [lo, lo+n)`. -/
def squareCells (lo : ℤ) (n : ℕ) : Finset (ℤ × ℤ) :=
  Finset.Icc lo (lo + n - 1) ×ˢ Finset.Icc lo (lo + n - 1)

def outerSq : CPoly := ⟨squareCells 0 6, (0, 0)⟩
def middleSq : CPoly := ⟨squareCells 1 4, (1, 1)⟩
def innerSq : CPoly := ⟨squareCells 2 2, (2, 2)⟩

/-! ## Arc discretization
Embeds `RobustOutlineExtractor._discretize_arc` (geometry/outline.py,
lines 145-170) over ℝ (floats carry no exact trigonometry; NaN does not
arise for the real-valued inputs the claim quantifies over).
`max(0.0, 1 - chord_err/radius)` and the `max_angle <= 0` fallback are
kept; `int(math.ceil(x))` is `⌈x⌉`. -/

noncomputable def discretizeMaxAngle (radius chordErr : ℝ) : ℝ :=
  2 * Real.arccos (max 0 (1 - chordErr / radius))

/-- Lines 163-164: when `max_angle <= 0` (or NaN), fall back to the whole
sweep. -/
noncomputable def discretizeEffAngle (sweep maxAngle : ℝ) : ℝ :=
  if maxAngle ≤ 0 then sweep else maxAngle

/-- Line 165: `steps = max(2, ceil(sweep / max_angle) + 1)`. -/
noncomputable def discretizeSteps (sweep maxAngle : ℝ) : ℤ :=
  max 2 (⌈sweep / maxAngle⌉ + 1)

/-- Line 166 (counterclockwise branch): the sample angles. -/
noncomputable def discretizeAngles (start sweep : ℝ) (steps : ℤ) (i : ℕ) : ℝ :=
  start + sweep * i / ((steps : ℝ) - 1)

/-- Modelled from geometry (not from the source): the sagitta — the
worst-case distance between a circular arc of central angle `theta` and
radius `radius` and its chord — equals `radius * (1 - cos (theta / 2))`. -/
noncomputable def sagitta (radius theta : ℝ) : ℝ :=
  radius * (1 - Real.cos (theta / 2))

end StencilForge

namespace StencilForge

/-! ### Theorems for the watertight gate (claim C6) -/

/-- C6: the watertight voxel rebuild is attempted exactly when the quality
mode and the face-count ceiling allow it: "fast" never attempts it, "auto"
attempts it only when the mesh is not already watertight, "watertight"
always attempts it, and no mode attempts it when the face count is zero or
exceeds the configured limit. -/
theorem watertight_gate_spec (mode : QualityMode) (faceCount faceLimit : ℕ)
    (wt : Bool) :
    (mode = QualityMode.fast → shouldAttemptWatertight mode faceCount faceLimit wt = false) ∧
    (faceCount = 0 → shouldAttemptWatertight mode faceCount faceLimit wt = false) ∧
    (faceLimit < faceCount → shouldAttemptWatertight mode faceCount faceLimit wt = false) ∧
    (mode = QualityMode.auto → 0 < faceCount → faceCount ≤ faceLimit →
      shouldAttemptWatertight mode faceCount faceLimit wt = !wt) ∧
    (mode = QualityMode.watertight → 0 < faceCount → faceCount ≤ faceLimit →
      shouldAttemptWatertight mode faceCount faceLimit wt = true) := by
  unfold shouldAttemptWatertight
  refine ⟨?_, ?_, ?_, ?_, ?_⟩
  · intro h; simp [h]
  · intro h
    cases mode <;> simp [h]
  · intro h
    have h0 : faceCount ≠ 0 := by omega
    cases mode <;> simp [h, h0]
  · intro hm h0 hle
    have h0' : faceCount ≠ 0 := by omega
    have hlt : ¬ faceLimit < faceCount := by omega
    simp [hm, h0', hlt]
  · intro hm h0 hle
    have h0' : faceCount ≠ 0 := by omega
    have hlt : ¬ faceLimit < faceCount := by omega
    simp [hm, h0', hlt]

/-- Witness for C6: concrete evaluations of the gate discharging every
hypothesis of `watertight_gate_spec`. -/
theorem watertight_gate_spec_witness :
    shouldAttemptWatertight QualityMode.fast 10 100 false = false ∧
    shouldAttemptWatertight QualityMode.auto 0 100 false = false ∧
    shouldAttemptWatertight QualityMode.watertight 101 100 false = false ∧
    shouldAttemptWatertight QualityMode.auto 10 100 true = !true ∧
    shouldAttemptWatertight QualityMode.watertight 10 100 false = true :=
  ⟨(watertight_gate_spec QualityMode.fast 10 100 false).1 rfl,
   (watertight_gate_spec QualityMode.auto 0 100 false).2.1 rfl,
   (watertight_gate_spec QualityMode.watertight 101 100 false).2.2.1 (by decide),
   (watertight_gate_spec QualityMode.auto 10 100 true).2.2.2.1 rfl (by decide) (by decide),
   (watertight_gate_spec QualityMode.watertight 10 100 false).2.2.2.2 rfl (by decide) (by decide)⟩

/-! ### Theorems for the model-engine factory (claim C10) -/

/-- C10: a backend name whose trimmed lowercase form is "sfmesh" yields the
trimesh engine (the dedicated sfmesh engine is never returned by the
factory); "cadquery" and "trimesh" yield the engine of that name; every
other normalised name yields an error naming the supported backends. -/
theorem model_engine_factory_spec (name : List Char) :
    (pyNormalize name = "sfmesh".toList →
      getModelEngine name = Except.ok EngineKind.trimesh) ∧
    (pyNormalize name = "cadquery".toList →
      getModelEngine name = Except.ok EngineKind.cadquery) ∧
    (pyNormalize name = "trimesh".toList →
      getModelEngine name = Except.ok EngineKind.trimesh) ∧
    (pyNormalize name ≠ "sfmesh".toList → pyNormalize name ≠ "cadquery".toList →
      pyNormalize name ≠ "trimesh".toList →
      getModelEngine name =
        Except.error
          ("Unsupported model backend ".toList ++ name ++
            ". Supported: cadquery, sfmesh, trimesh".toList)) ∧
    getModelEngine name ≠ Except.ok EngineKind.sfmesh := by
  have hlook_ne : ∀ key : List Char, key ≠ "cadquery".toList → key ≠ "trimesh".toList →
      key ≠ "sfmesh".toList → lookupEngine key = none := by
    intro key h1 h2 h3
    unfold lookupEngine
    rw [if_neg h1, if_neg h2, if_neg h3]
  refine ⟨?_, ?_, ?_, ?_, ?_⟩
  · intro h
    unfold getModelEngine remapKey
    rw [h, if_pos rfl]
    rfl
  · intro h
    unfold getModelEngine remapKey
    rw [h]
    rfl
  · intro h
    unfold getModelEngine remapKey
    rw [h]
    rfl
  · intro h1 h2 h3
    unfold getModelEngine remapKey
    rw [if_neg h1, hlook_ne _ h2 h3 h1]
  · by_cases h1 : pyNormalize name = "sfmesh".toList
    · unfold getModelEngine remapKey
      rw [h1, if_pos rfl]
      intro hcontra
      exact EngineKind.noConfusion (Except.ok.inj hcontra)
    · by_cases h2 : pyNormalize name = "cadquery".toList
      · unfold getModelEngine remapKey
        rw [h2]
        intro hcontra
        exact EngineKind.noConfusion (Except.ok.inj hcontra)
      · by_cases h3 : pyNormalize name = "trimesh".toList
        · unfold getModelEngine remapKey
          rw [h3]
          intro hcontra
          exact EngineKind.noConfusion (Except.ok.inj hcontra)
        · unfold getModelEngine remapKey
          rw [if_neg h1, hlook_ne _ h2 h3 h1]
          intro hcontra
          exact Except.noConfusion hcontra

/-- Witness for C10: the factory maps "  SfMesh " to the trimesh engine,
keeps "cadquery" and "trimesh", and rejects "solidworks". -/
theorem model_engine_factory_spec_witness :
    getModelEngine "  SfMesh ".toList = Except.ok EngineKind.trimesh ∧
    getModelEngine "cadquery".toList = Except.ok EngineKind.cadquery ∧
    getModelEngine "trimesh".toList = Except.ok EngineKind.trimesh ∧
    getModelEngine "solidworks".toList =
      Except.error
        ("Unsupported model backend ".toList ++ "solidworks".toList ++
          ". Supported: cadquery, sfmesh, trimesh".toList) :=
  ⟨(model_engine_factory_spec "  SfMesh ".toList).1 (by decide),
   (model_engine_factory_spec "cadquery".toList).2.1 (by decide),
   (model_engine_factory_spec "trimesh".toList).2.2.1 (by decide),
   (model_engine_factory_spec "solidworks".toList).2.2.2.1 (by decide) (by decide) (by decide)⟩

/-! ### Theorems for the export validation (claim C9) -/

/-- C9: once the STL has been written (the mesh was non-empty, so the
pre-write guard passed), stencil generation raises if and only if the
written file is empty (size ≤ 0), the reload fails, or the reloaded mesh
has zero faces; watertightness never influences the outcome. -/
theorem export_validation_spec (meshFaces : ℕ) (wt wt' : Bool) (writeSize : ℤ)
    (reload : Except String ℕ) (hwritten : meshFaces ≠ 0) :
    (isError (exportValidate meshFaces wt writeSize reload) = true ↔
      (writeSize ≤ 0 ∨ isError reload = true ∨ reload = Except.ok 0)) ∧
    exportValidate meshFaces wt writeSize reload =
      exportValidate meshFaces wt' writeSize reload := by
  constructor
  · unfold exportValidate
    by_cases hs : writeSize ≤ 0
    · simp [hwritten, hs, isError]
    · cases reload with
      | error e => simp [hwritten, hs, isError]
      | ok fc =>
          by_cases hfc : fc = 0
          · simp [hwritten, hs, hfc, isError]
          · simp [hwritten, hs, hfc, isError]
  · unfold exportValidate
    simp [hwritten]

/-! ### Theorems for the QFN candidate filter (claim C4) -/

/-- C4: a pad polygon is accepted as a QFN candidate only if its polygon
area is at least 85% of its minimum rotated rectangle's area, its
long/short aspect ratio lies in [1.2, 6.0] (so no candidate is ever
outside that window), and its short side is at most the configured pad
width; and whenever fewer than 12 candidates survive the filter,
detection aborts and `regenerate_qfn_paste` returns the input geometry
unchanged. -/
theorem qfn_candidate_filter_spec (maxPadWidth : ℚ) (polys pads : List QPolyData) :
    (∀ p : QPolyData, detectQfnPads maxPadWidth polys = some pads → p ∈ pads →
      ∃ rectArea longSide shortSide angle,
        p.rectMetrics = some (rectArea, longSide, shortSide, angle) ∧
        0 < rectArea ∧ (85/100 : ℚ) * rectArea ≤ p.area ∧
        0 < shortSide ∧ (12/10 : ℚ) ≤ longSide / shortSide ∧
        longSide / shortSide ≤ 6 ∧ shortSide ≤ maxPadWidth) ∧
    ((polys.filter (padFilter maxPadWidth)).length < 12 →
      detectQfnPads maxPadWidth polys = none) ∧
    (∀ (G Grp : Type) (threshold : ℚ)
      (build : List QPolyData → Except String (Option Grp × ℚ))
      (regen : Grp → Except String (Option G)) (geometry : G),
      detectQfnPads maxPadWidth polys = none →
      regenerateQfnPaste maxPadWidth threshold (Except.ok polys) build regen geometry =
        Except.ok geometry) := by
  refine ⟨?_, ?_, ?_⟩
  · intro p hdet hmem
    unfold detectQfnPads at hdet
    by_cases hlen : (polys.filter (padFilter maxPadWidth)).length < 12
    · rw [if_pos hlen] at hdet; exact absurd hdet (by simp)
    · rw [if_neg hlen] at hdet
      have hpads : pads = polys.filter (padFilter maxPadWidth) := by
        exact (Option.some.inj hdet).symm
      subst hpads
      have hfil : padFilter maxPadWidth p = true := (List.mem_filter.mp hmem).2
      rcases hm : p.rectMetrics with _ | ⟨rectArea, longSide, shortSide, angle⟩
      · simp [padFilter, hm] at hfil
      · simp only [padFilter, hm] at hfil
        by_cases hra : rectArea ≤ 0
        · rw [if_pos hra] at hfil; exact absurd hfil (by simp)
        · rw [if_neg hra] at hfil
          have hra' : 0 < rectArea := lt_of_not_le hra
          by_cases hrect : p.area / rectArea < 85/100
          · rw [if_pos hrect] at hfil; exact absurd hfil (by simp)
          · rw [if_neg hrect] at hfil
            have hrect' : (85/100 : ℚ) * rectArea ≤ p.area := by
              have := le_of_not_lt hrect
              calc (85/100 : ℚ) * rectArea ≤ p.area / rectArea * rectArea := by
                    exact mul_le_mul_of_nonneg_right this (le_of_lt hra')
                _ = p.area := div_mul_cancel₀ _ (ne_of_gt hra')
            by_cases hasp : ¬ ((12/10 : ℚ) ≤ (if 0 < shortSide then longSide / shortSide else 0) ∧
                (if 0 < shortSide then longSide / shortSide else 0) ≤ 6)
            · rw [if_pos hasp] at hfil; exact absurd hfil (by simp)
            · rw [if_neg hasp] at hfil
              push_neg at hasp
              obtain ⟨hlo, hhi⟩ := hasp
              have hsh : 0 < shortSide := by
                by_contra hns
                rw [if_neg hns] at hlo
                norm_num at hlo
              rw [if_pos hsh] at hlo hhi
              by_cases hw : maxPadWidth < shortSide
              · rw [if_pos hw] at hfil; exact absurd hfil (by simp)
              · exact ⟨rectArea, longSide, shortSide, angle, rfl, hra', hrect',
                  hsh, hlo, hhi, le_of_not_lt hw⟩
  · intro hlen
    unfold detectQfnPads
    rw [if_pos hlen]
  · intro G Grp threshold build regen geometry hdet
    by_cases hnil : polys = []
    · subst hnil; simp [regenerateQfnPaste]
    · simp [regenerateQfnPaste, hnil, hdet]

/-- Witness for C4: a concrete 1×2 mm rectangular pad among 12 candidates
satisfies every filter condition; an 11-candidate list aborts detection
and leaves the geometry unchanged. -/
theorem qfn_candidate_filter_spec_witness :
    (∃ rectArea longSide shortSide angle,
      samplePad.rectMetrics = some (rectArea, longSide, shortSide, angle) ∧
      0 < rectArea ∧ (85/100 : ℚ) * rectArea ≤ samplePad.area ∧
      0 < shortSide ∧ (12/10 : ℚ) ≤ longSide / shortSide ∧
      longSide / shortSide ≤ 6 ∧ shortSide ≤ (6/5 : ℚ)) ∧
    detectQfnPads (6/5) samplePads11 = none ∧
    @regenerateQfnPaste ℕ Unit (6/5) (3/4) (Except.ok samplePads11)
      (fun _ => Except.ok (none, 0)) (fun _ => Except.ok none) 7 = Except.ok 7 :=
  have hpf : padFilter (6/5) samplePad = true := by norm_num [padFilter, samplePad]
  have hfil12 : samplePads12.filter (padFilter (6/5)) = samplePads12 := by
    simp [samplePads12, List.filter, hpf]
  have hfil11 : (samplePads11.filter (padFilter (6/5))).length < 12 := by
    simp [samplePads11, List.filter, hpf]
  ⟨(qfn_candidate_filter_spec (6/5) samplePads12 samplePads12).1
      samplePad
      (by
        unfold detectQfnPads
        rw [hfil12]
        have hlen : ¬ samplePads12.length < 12 := by simp [samplePads12]
        rw [if_neg hlen])
      (by simp [samplePads12]),
   (qfn_candidate_filter_spec (6/5) samplePads11 []).2.1 hfil11,
   (qfn_candidate_filter_spec (6/5) samplePads11 []).2.2 ℕ Unit (3/4)
      (fun _ => Except.ok (none, 0)) (fun _ => Except.ok none) 7
      ((qfn_candidate_filter_spec (6/5) samplePads11 []).2.1 hfil11)⟩

/-! ### Theorems for QFN failure isolation (claim C5) -/

/-- C5: no failure inside QFN regeneration aborts stencil generation —
when flattening raises, detection aborts, grouping raises or yields no
group, the confidence score is below threshold, or regeneration raises or
returns nothing, the pipeline continues with the original paste geometry;
in every remaining case it continues with the regenerated geometry. -/
theorem qfn_failure_nonfatal {G Grp : Type} (maxPadWidth threshold : ℚ)
    (flattenRes : Except String (List QPolyData))
    (build : List QPolyData → Except String (Option Grp × ℚ))
    (regen : Grp → Except String (Option G)) (geometry : G) :
    (∀ e, flattenRes = Except.error e →
      coreQfnStep true geometry
        (fun g => regenerateQfnPaste maxPadWidth threshold flattenRes build regen g) =
        geometry) ∧
    (∀ polys, flattenRes = Except.ok polys → detectQfnPads maxPadWidth polys = none →
      coreQfnStep true geometry
        (fun g => regenerateQfnPaste maxPadWidth threshold flattenRes build regen g) =
        geometry) ∧
    (∀ polys pads e, flattenRes = Except.ok polys →
      detectQfnPads maxPadWidth polys = some pads → build pads = Except.error e →
      coreQfnStep true geometry
        (fun g => regenerateQfnPaste maxPadWidth threshold flattenRes build regen g) =
        geometry) ∧
    (∀ polys pads score, flattenRes = Except.ok polys →
      detectQfnPads maxPadWidth polys = some pads → build pads = Except.ok (none, score) →
      coreQfnStep true geometry
        (fun g => regenerateQfnPaste maxPadWidth threshold flattenRes build regen g) =
        geometry) ∧
    (∀ polys pads qfn score, flattenRes = Except.ok polys →
      detectQfnPads maxPadWidth polys = some pads →
      build pads = Except.ok (some qfn, score) → score < threshold →
      coreQfnStep true geometry
        (fun g => regenerateQfnPaste maxPadWidth threshold flattenRes build regen g) =
        geometry) ∧
    (∀ polys pads qfn score e, flattenRes = Except.ok polys →
      detectQfnPads maxPadWidth polys = some pads →
      build pads = Except.ok (some qfn, score) → ¬ score < threshold →
      regen qfn = Except.error e →
      coreQfnStep true geometry
        (fun g => regenerateQfnPaste maxPadWidth threshold flattenRes build regen g) =
        geometry) ∧
    (∀ polys pads qfn score, flattenRes = Except.ok polys →
      detectQfnPads maxPadWidth polys = some pads →
      build pads = Except.ok (some qfn, score) → ¬ score < threshold →
      regen qfn = Except.ok none →
      coreQfnStep true geometry
        (fun g => regenerateQfnPaste maxPadWidth threshold flattenRes build regen g) =
        geometry) ∧
    (coreQfnStep true geometry
        (fun g => regenerateQfnPaste maxPadWidth threshold flattenRes build regen g) =
        geometry ∨
      ∃ r, regenerateQfnPaste maxPadWidth threshold flattenRes build regen geometry =
          Except.ok r ∧
        coreQfnStep true geometry
          (fun g => regenerateQfnPaste maxPadWidth threshold flattenRes build regen g) = r) := by
  have hne : ∀ polys pads, detectQfnPads maxPadWidth polys = some pads → polys ≠ [] := by
    intro polys pads hdet hnil
    subst hnil
    simp [detectQfnPads] at hdet
  refine ⟨?_, ?_, ?_, ?_, ?_, ?_, ?_, ?_⟩
  · intro e hflat
    simp [coreQfnStep, regenerateQfnPaste, hflat]
  · intro polys hflat hdet
    by_cases hnil : polys = []
    · simp [coreQfnStep, regenerateQfnPaste, hflat, hnil]
    · simp [coreQfnStep, regenerateQfnPaste, hflat, hnil, hdet]
  · intro polys pads e hflat hdet hbuild
    simp [coreQfnStep, regenerateQfnPaste, hflat, hne polys pads hdet, hdet, hbuild]
  · intro polys pads score hflat hdet hbuild
    simp [coreQfnStep, regenerateQfnPaste, hflat, hne polys pads hdet, hdet, hbuild]
  · intro polys pads qfn score hflat hdet hbuild hscore
    simp [coreQfnStep, regenerateQfnPaste, hflat, hne polys pads hdet, hdet, hbuild, hscore]
  · intro polys pads qfn score e hflat hdet hbuild hscore hregen
    simp [coreQfnStep, regenerateQfnPaste, hflat, hne polys pads hdet, hdet, hbuild,
      hscore, hregen]
  · intro polys pads qfn score hflat hdet hbuild hscore hregen
    simp [coreQfnStep, regenerateQfnPaste, hflat, hne polys pads hdet, hdet, hbuild,
      hscore, hregen]
  · cases hres : regenerateQfnPaste maxPadWidth threshold flattenRes build regen geometry with
    | error e => left; simp [coreQfnStep, hres]
    | ok r => right; exact ⟨r, rfl, by simp [coreQfnStep, hres]⟩

/-- Witness for C5: a flattening stage that raises leaves a concrete paste
geometry unchanged. -/
theorem qfn_failure_nonfatal_witness :
    coreQfnStep true (7 : ℕ)
      (fun g => @regenerateQfnPaste ℕ Unit (6/5) (3/4) (Except.error "boom")
        (fun _ => Except.ok (none, 0)) (fun _ => Except.ok none) g) = 7 :=
  (@qfn_failure_nonfatal ℕ Unit (6/5) (3/4) (Except.error "boom")
    (fun _ => Except.ok (none, 0)) (fun _ => Except.ok none) 7).1 "boom" rfl

/-! ### Theorems for triangle coverage (claim C1) -/

/-- Counterexample for C1 as stated: on the sfmesh CDT path
(engine.py, line 298) a positive-area triangle whose representative point
lies inside the polygon is kept even though the polygon does not cover
the whole triangle — full coverage does *not* hold on every extrusion
path. -/
theorem triangle_coverage_counterexample :
    sfmeshKeptTriangles ⟨[(0, 0), (1, 0), (0, 1)]⟩ [⟨[(0, 0), (1, 1)]⟩] =
      [⟨[(0, 0), (1, 1)]⟩] ∧
    GridGeom.covers ⟨[(0, 0), (1, 0), (0, 1)]⟩ ⟨[(0, 0), (1, 1)]⟩ = false := by
  decide

/-- C1 (amended): on the robust triangulation path
(`_triangulate_polygon_robust`, used by the standard extrusion) a CDT
triangle is kept only if it has positive area and the source polygon
covers the whole triangle; on the sfmesh CDT path a triangle is kept
only if it has positive area and the polygon covers its representative
point, which does not guarantee full coverage. -/
theorem triangle_coverage_spec (poly : GridGeom) (tris : List GridGeom) :
    (∀ tri ∈ robustKeptTriangles poly tris, 0 < tri.area ∧ poly.covers tri = true) ∧
    (∀ tri ∈ sfmeshKeptTriangles poly tris, 0 < tri.area ∧
      ∃ p, tri.repPoint = some p ∧ poly.coversCell p = true) := by
  constructor
  · intro tri hmem
    have h := (List.mem_filter.mp hmem).2
    unfold robustKeep at h
    rw [Bool.and_eq_true] at h
    exact ⟨of_decide_eq_true h.1, h.2⟩
  · intro tri hmem
    have h := (List.mem_filter.mp hmem).2
    unfold sfmeshKeep at h
    rw [Bool.and_eq_true] at h
    obtain ⟨h1, h2⟩ := h
    refine ⟨of_decide_eq_true h1, ?_⟩
    rcases hrep : tri.repPoint with _ | p
    · rw [hrep] at h2
      exact Bool.noConfusion h2
    · rw [hrep] at h2
      exact ⟨p, rfl, h2⟩

/-- Witness for C1 (amended): a fully covered unit triangle passes the
robust filter; the sliver triangle passes the sfmesh filter through its
representative point. -/
theorem triangle_coverage_spec_witness :
    (0 < (⟨[(0, 0)]⟩ : GridGeom).area ∧
      GridGeom.covers ⟨[(0, 0), (1, 0), (0, 1)]⟩ ⟨[(0, 0)]⟩ = true) ∧
    (0 < (⟨[(0, 0), (1, 1)]⟩ : GridGeom).area ∧
      ∃ p, GridGeom.repPoint ⟨[(0, 0), (1, 1)]⟩ = some p ∧
        GridGeom.coversCell ⟨[(0, 0), (1, 0), (0, 1)]⟩ p = true) :=
  ⟨(triangle_coverage_spec ⟨[(0, 0), (1, 0), (0, 1)]⟩ [⟨[(0, 0)]⟩]).1
      ⟨[(0, 0)]⟩ (by decide),
   (triangle_coverage_spec ⟨[(0, 0), (1, 0), (0, 1)]⟩ [⟨[(0, 0), (1, 1)]⟩]).2
      ⟨[(0, 0), (1, 1)]⟩ (by decide)⟩

/-! ### Theorems for the even-odd outline fill (claim C2) -/

/-- Counterexample for C2 as stated: for three nested concentric squares
(areas 36, 16, 4) `_outline_evenodd` produces area 20 = outer − middle,
not 24 = outer − middle + inner: the union of even-depth candidates minus
the union of odd-depth candidates removes the inner square along with the
middle one. -/
theorem evenodd_counterexample :
    (outlineEvenodd [outerSq, middleSq, innerSq]).map Finset.card = some 20 ∧
    outerSq.area - middleSq.area + innerSq.area = 24 ∧ (20 : ℕ) ≠ 24 := by
  decide

/-- C2 (amended): for any three nested candidates (inner ⊆ middle ⊆
outer, strictly decreasing positive areas, representative points inside),
the even-odd rule unions the even-depth candidates and subtracts the
union of the odd-depth ones, yielding outer \ middle with area
outer − middle — the inner candidate is removed by the subtraction. -/
theorem evenodd_nested_spec (O M I : CPoly)
    (hIM : I.cells ⊆ M.cells) (hMO : M.cells ⊆ O.cells)
    (hI0 : 0 < I.area) (hIMlt : I.area < M.area) (hMOlt : M.area < O.area)
    (hrepM : M.rep ∈ M.cells) (hrepI : I.rep ∈ I.cells) :
    outlineEvenodd [O, M, I] = some (O.cells \ M.cells) ∧
    (O.cells \ M.cells).card = O.area - M.area := by
  have hIne : ¬ (I.cells = ∅) :=
    Finset.nonempty_iff_ne_empty.mp (Finset.card_pos.mp hI0)
  have hM0 : 0 < M.area := lt_trans hI0 hIMlt
  have hMne : ¬ (M.cells = ∅) :=
    Finset.nonempty_iff_ne_empty.mp (Finset.card_pos.mp hM0)
  have hO0 : 0 < O.area := lt_trans hM0 hMOlt
  have hOne : ¬ (O.cells = ∅) :=
    Finset.nonempty_iff_ne_empty.mp (Finset.card_pos.mp hO0)
  have hcleaned : List.filter (fun p => !decide (p.cells = ∅)) [O, M, I] = [O, M, I] := by
    simp [List.filter, hOne, hMne, hIne]
  have hsort : sortDesc [O, M, I] = [O, M, I] := by
    simp only [sortDesc, insertDesc]
    rw [if_pos (le_of_lt hIMlt)]
    simp only [insertDesc]
    rw [if_pos (le_of_lt hMOlt)]
  have hrepMO : M.rep ∈ O.cells := hMO hrepM
  have hrepIO : I.rep ∈ O.cells := hMO (hIM hrepI)
  have hpar : parentsOf [O, M, I] = [none, some 0, some 0] := by
    unfold parentsOf
    rw [show ([O, M, I] : List CPoly).length = 3 from rfl,
      show List.range 3 = [0, 1, 2] from rfl]
    simp [List.find?, hrepMO, hrepIO]
  have hdep : depthsOf [none, some 0, some 0] = [0, 1, 1] := by decide
  have heven : evensOf [O, M, I] = [O] := by
    unfold evensOf
    rw [hpar, hdep]
    rfl
  have hodds : oddsOf [O, M, I] = [M, I] := by
    unfold oddsOf
    rw [hpar, hdep]
    rfl
  have hset : (O.cells ∪ ∅) \ (M.cells ∪ (I.cells ∪ ∅)) = O.cells \ M.cells := by
    rw [Finset.union_empty, Finset.union_empty, Finset.union_eq_left.mpr hIM]
  constructor
  · show (if List.filter (fun p => !decide (p.cells = ∅)) [O, M, I] = [] then none
      else if evensOf (sortDesc (List.filter (fun p => !decide (p.cells = ∅)) [O, M, I])) = []
        then none
      else if oddsOf (sortDesc (List.filter (fun p => !decide (p.cells = ∅)) [O, M, I])) = []
        then some (unionAll ((evensOf (sortDesc (List.filter
          (fun p => !decide (p.cells = ∅)) [O, M, I]))).map CPoly.cells))
      else some (unionAll ((evensOf (sortDesc (List.filter
          (fun p => !decide (p.cells = ∅)) [O, M, I]))).map CPoly.cells) \
        unionAll ((oddsOf (sortDesc (List.filter
          (fun p => !decide (p.cells = ∅)) [O, M, I]))).map CPoly.cells))) =
      some (O.cells \ M.cells)
    rw [hcleaned, hsort, heven, hodds]
    rw [if_neg (by simp), if_neg (by simp), if_neg (by simp)]
    unfold unionAll
    simp only [List.map_cons, List.map_nil, List.foldr_cons, List.foldr_nil]
    rw [hset]
  · rw [Finset.card_sdiff hMO]
    rfl

/-- Witness for C2 (amended): instantiating the nested-triple theorem on
the three concrete concentric squares. -/
theorem evenodd_nested_spec_witness :
    outlineEvenodd [outerSq, middleSq, innerSq] =
      some (outerSq.cells \ middleSq.cells) ∧
    (outerSq.cells \ middleSq.cells).card = outerSq.area - middleSq.area :=
  evenodd_nested_spec outerSq middleSq innerSq (by decide) (by decide)
    (by decide) (by decide) (by decide) (by decide) (by decide)

/-! ### Theorems for arc discretization (claim C8) -/

/-- C8: for a positive radius, a chord-error tolerance in (0, radius) and
a positive sweep, consecutive arc samples subtend the central angle
sweep/(steps−1), that angle is at most
`max_angle = 2·acos(1 − chord_err/radius)`, and hence the sagitta (the
worst-case chord-to-arc deviation) is at most the tolerance. -/
theorem arc_discretization_spec (radius chordErr sweep start : ℝ)
    (hr : 0 < radius) (he : 0 < chordErr) (her : chordErr < radius) (hs : 0 < sweep) :
    (∀ i : ℕ,
      discretizeAngles start sweep
          (discretizeSteps sweep
            (discretizeEffAngle sweep (discretizeMaxAngle radius chordErr))) (i + 1) -
        discretizeAngles start sweep
          (discretizeSteps sweep
            (discretizeEffAngle sweep (discretizeMaxAngle radius chordErr))) i =
        sweep / ((discretizeSteps sweep
          (discretizeEffAngle sweep (discretizeMaxAngle radius chordErr)) : ℝ) - 1)) ∧
    sweep / ((discretizeSteps sweep
        (discretizeEffAngle sweep (discretizeMaxAngle radius chordErr)) : ℝ) - 1) ≤
      discretizeMaxAngle radius chordErr ∧
    sagitta radius (sweep / ((discretizeSteps sweep
        (discretizeEffAngle sweep (discretizeMaxAngle radius chordErr)) : ℝ) - 1)) ≤
      chordErr := by
  have hc0 : (0 : ℝ) ≤ max 0 (1 - chordErr / radius) := le_max_left _ _
  have hc1 : max 0 (1 - chordErr / radius) < 1 := by
    apply max_lt one_pos
    have : 0 < chordErr / radius := div_pos he hr
    linarith
  have hA : 0 < discretizeMaxAngle radius chordErr := by
    unfold discretizeMaxAngle
    have := Real.arccos_pos.mpr hc1
    linarith
  have hE : discretizeEffAngle sweep (discretizeMaxAngle radius chordErr) =
      discretizeMaxAngle radius chordErr := by
    unfold discretizeEffAngle
    rw [if_neg (not_le.mpr hA)]
  set A := discretizeMaxAngle radius chordErr with hAdef
  set N := discretizeSteps sweep (discretizeEffAngle sweep A) with hNdef
  have hN2 : (2 : ℤ) ≤ N := le_max_left _ _
  have hN1 : (1 : ℝ) ≤ (N : ℝ) - 1 := by
    have : ((2 : ℤ) : ℝ) ≤ (N : ℝ) := Int.cast_le.mpr hN2
    push_cast at this
    linarith
  have hNpos : (0 : ℝ) < (N : ℝ) - 1 := by linarith
  have hceil : sweep / A ≤ (N : ℝ) - 1 := by
    have h1 : sweep / A ≤ (⌈sweep / A⌉ : ℝ) := Int.le_ceil _
    have h2 : (⌈sweep / A⌉ + 1 : ℤ) ≤ N := by
      rw [hNdef, hE]
      exact le_max_right _ _
    have h3 : ((⌈sweep / A⌉ + 1 : ℤ) : ℝ) ≤ (N : ℝ) := Int.cast_le.mpr h2
    push_cast at h3
    linarith
  have hth : sweep / ((N : ℝ) - 1) ≤ A := by
    rw [div_le_iff hNpos]
    have := (div_le_iff hA).mp hceil
    linarith
  have hth0 : 0 ≤ sweep / ((N : ℝ) - 1) := le_of_lt (div_pos hs hNpos)
  refine ⟨?_, hth, ?_⟩
  · intro i
    unfold discretizeAngles
    have hne : (N : ℝ) - 1 ≠ 0 := ne_of_gt hNpos
    push_cast
    field_simp
    ring
  · have hhalf : sweep / ((N : ℝ) - 1) / 2 ≤ Real.arccos (max 0 (1 - chordErr / radius)) := by
      have : A / 2 = Real.arccos (max 0 (1 - chordErr / radius)) := by
        rw [hAdef]
        unfold discretizeMaxAngle
        ring
      linarith [this ▸ (by linarith [hth] : sweep / ((N : ℝ) - 1) / 2 ≤ A / 2)]
    have hcos : max 0 (1 - chordErr / radius) ≤
        Real.cos (sweep / ((N : ℝ) - 1) / 2) := by
      have h1 : Real.cos (Real.arccos (max 0 (1 - chordErr / radius))) ≤
          Real.cos (sweep / ((N : ℝ) - 1) / 2) :=
        Real.cos_le_cos_of_nonneg_of_le_pi (by linarith)
          (Real.arccos_le_pi (max 0 (1 - chordErr / radius))) hhalf
      rwa [Real.cos_arccos (by linarith) (le_of_lt hc1)] at h1
    have hlb : 1 - chordErr / radius ≤ Real.cos (sweep / ((N : ℝ) - 1) / 2) :=
      le_trans (le_max_right _ _) hcos
    unfold sagitta
    have hrr : radius * (chordErr / radius) = chordErr := by
      field_simp
    calc radius * (1 - Real.cos (sweep / ((N : ℝ) - 1) / 2))
        ≤ radius * (chordErr / radius) := by
          apply mul_le_mul_of_nonneg_left _ (le_of_lt hr)
          linarith
      _ = chordErr := hrr

/-- Witness for C8: the discretization bounds at radius 1 mm, chord error
0.5 mm, sweep 1 rad. -/
theorem arc_discretization_spec_witness :
    (discretizeAngles 0 1
        (discretizeSteps 1 (discretizeEffAngle 1 (discretizeMaxAngle 1 (1/2)))) 1 -
      discretizeAngles 0 1
        (discretizeSteps 1 (discretizeEffAngle 1 (discretizeMaxAngle 1 (1/2)))) 0 =
      1 / ((discretizeSteps 1 (discretizeEffAngle 1 (discretizeMaxAngle 1 (1/2))) : ℝ) - 1)) ∧
    1 / ((discretizeSteps 1 (discretizeEffAngle 1 (discretizeMaxAngle 1 (1/2))) : ℝ) - 1) ≤
      discretizeMaxAngle 1 (1/2) ∧
    sagitta 1 (1 / ((discretizeSteps 1
        (discretizeEffAngle 1 (discretizeMaxAngle 1 (1/2))) : ℝ) - 1)) ≤ (1/2 : ℝ) :=
  have h := arc_discretization_spec 1 (1/2) 1 0 (by norm_num) (by norm_num)
    (by norm_num) (by norm_num)
  ⟨h.1 0, h.2.1, h.2.2⟩

/-! ### Theorems for gap bridging (claim C3) -/

theorem mem_enumOf {α : Type} (l : List α) (n : ℕ) (p : ℕ × α)
    (hmem : p ∈ enumOf l n) : n ≤ p.1 ∧ l[p.1 - n]? = some p.2 := by
  induction l generalizing n with
  | nil => simp [enumOf] at hmem
  | cons a rest ih =>
      rw [enumOf] at hmem
      rcases List.mem_cons.mp hmem with h | h
      · subst h
        simp
      · obtain ⟨hle, hget⟩ := ih (n + 1) h
        refine ⟨by omega, ?_⟩
        have hsub : p.1 - n = (p.1 - (n + 1)) + 1 := by omega
        rw [hsub, List.getElem?_cons_succ]
        exact hget

theorem nearestList_getElem (pts : List Pt) (i : ℕ)
    (e : Option (ℕ × ℚ)) (h : (nearestList pts)[i]? = some e) :
    e = nearestIdx pts i := by
  unfold nearestList at h
  rcases List.getElem?_eq_some_iff.mp h with ⟨hlt, hval⟩
  rw [List.getElem_map] at hval
  simp at hval
  exact hval.symm

theorem bridgeLoop_mem_spec (pts : List Pt) (nearest : List (Option (ℕ × ℚ)))
    (tol2 : ℚ) (maxLinks : ℤ) (todo : List (ℕ × Option (ℕ × ℚ))) :
    ∀ (used : List ℕ) (bridged : List Seg),
      (∀ ie ∈ todo, nearest[ie.1]? = some ie.2) →
      (∀ st ∈ bridged, ∃ (i j : ℕ) (d d' : ℚ),
        nearest[i]? = some (some (j, d)) ∧ nearest[j]? = some (some (i, d')) ∧
        d ≤ tol2 ∧ d' ≤ tol2 ∧ pts[i]? = some st.1 ∧ pts[j]? = some st.2) →
      ∀ st ∈ bridgeLoop pts nearest tol2 maxLinks todo used bridged,
        ∃ (i j : ℕ) (d d' : ℚ),
          nearest[i]? = some (some (j, d)) ∧ nearest[j]? = some (some (i, d')) ∧
          d ≤ tol2 ∧ d' ≤ tol2 ∧ pts[i]? = some st.1 ∧ pts[j]? = some st.2 := by
  induction todo with
  | nil =>
      intro used bridged _ hacc st hmem
      rw [bridgeLoop] at hmem
      exact hacc st hmem
  | cons head rest ih =>
      obtain ⟨i, entry⟩ := head
      intro used bridged htodo hacc st hmem
      have hent : nearest[i]? = some entry := htodo (i, entry) (List.mem_cons_self _ _)
      have htodo' : ∀ ie ∈ rest, nearest[ie.1]? = some ie.2 :=
        fun ie h => htodo ie (List.mem_cons_of_mem _ h)
      cases entry with
      | none =>
          rw [bridgeLoop] at hmem
          exact ih used bridged htodo' hacc st hmem
      | some jd =>
          obtain ⟨j, d⟩ := jd
          rw [bridgeLoop] at hmem
          by_cases h1 : i ∈ used ∨ j ∈ used
          · rw [if_pos h1] at hmem
            exact ih used bridged htodo' hacc st hmem
          · rw [if_neg h1] at hmem
            by_cases h2 : tol2 < d
            · rw [if_pos h2] at hmem
              exact ih used bridged htodo' hacc st hmem
            · rw [if_neg h2] at hmem
              split at hmem
              next backIdx backDist hback =>
                by_cases h3 : backIdx ≠ i
                · rw [if_pos h3] at hmem
                  exact ih used bridged htodo' hacc st hmem
                · rw [if_neg h3] at hmem
                  by_cases h4 : tol2 < backDist
                  · rw [if_pos h4] at hmem
                    exact ih used bridged htodo' hacc st hmem
                  · rw [if_neg h4] at hmem
                    have hbi : i = backIdx := (not_not.mp h3).symm
                    subst hbi
                    split at hmem
                    next p1 p2 hp1 hp2 =>
                      have hacc' : ∀ st' ∈ bridged ++ [(p1, p2)], ∃ (i' j' : ℕ) (d' d'' : ℚ),
                          nearest[i']? = some (some (j', d')) ∧
                          nearest[j']? = some (some (i', d'')) ∧
                          d' ≤ tol2 ∧ d'' ≤ tol2 ∧
                          pts[i']? = some st'.1 ∧ pts[j']? = some st'.2 := by
                        intro st' hst'
                        rcases List.mem_append.mp hst' with h | h
                        · exact hacc st' h
                        · have : st' = (p1, p2) := by simpa using h
                          subst this
                          exact ⟨i, j, d, backDist, hent, hback,
                            le_of_not_lt h2, le_of_not_lt h4, hp1, hp2⟩
                      by_cases h5 : 0 ≤ maxLinks ∧ maxLinks ≤ (bridged.length : ℤ) + 1
                      · rw [if_pos h5] at hmem
                        exact hacc' st hmem
                      · rw [if_neg h5] at hmem
                        exact ih (i :: j :: used) (bridged ++ [(p1, p2)])
                          htodo' hacc' st hmem
                    all_goals exact ih used bridged htodo' hacc st hmem
              all_goals exact ih used bridged htodo' hacc st hmem

theorem bridgeLoop_length_spec (pts : List Pt) (nearest : List (Option (ℕ × ℚ)))
    (tol2 : ℚ) (maxLinks : ℤ) (todo : List (ℕ × Option (ℕ × ℚ))) :
    ∀ (used : List ℕ) (bridged : List Seg),
      0 ≤ maxLinks → (bridged.length : ℤ) < maxLinks →
      ((bridgeLoop pts nearest tol2 maxLinks todo used bridged).length : ℤ) ≤ maxLinks := by
  induction todo with
  | nil =>
      intro used bridged _ hlen
      rw [bridgeLoop]
      exact le_of_lt hlen
  | cons head rest ih =>
      obtain ⟨i, entry⟩ := head
      intro used bridged h0 hlen
      cases entry with
      | none =>
          rw [bridgeLoop]
          exact ih used bridged h0 hlen
      | some jd =>
          obtain ⟨j, d⟩ := jd
          rw [bridgeLoop]
          by_cases h1 : i ∈ used ∨ j ∈ used
          · rw [if_pos h1]; exact ih used bridged h0 hlen
          · rw [if_neg h1]
            by_cases h2 : tol2 < d
            · rw [if_pos h2]; exact ih used bridged h0 hlen
            · rw [if_neg h2]
              split
              next backIdx backDist hback =>
                by_cases h3 : backIdx ≠ i
                · rw [if_pos h3]; exact ih used bridged h0 hlen
                · rw [if_neg h3]
                  by_cases h4 : tol2 < backDist
                  · rw [if_pos h4]; exact ih used bridged h0 hlen
                  · rw [if_neg h4]
                    split
                    next p1 p2 hp1 hp2 =>
                      by_cases h5 : 0 ≤ maxLinks ∧ maxLinks ≤ (bridged.length : ℤ) + 1
                      · rw [if_pos h5]
                        simp only [List.length_append, List.length_cons,
                          List.length_nil]
                        push_cast
                        omega
                      · rw [if_neg h5]
                        apply ih (i :: j :: used) (bridged ++ [(p1, p2)]) h0
                        simp only [List.length_append, List.length_cons,
                          List.length_nil]
                        push_cast
                        push_neg at h5
                        have := h5 h0
                        omega
                    all_goals exact ih used bridged h0 hlen
              all_goals exact ih used bridged h0 hlen

/-- C3: a synthetic bridge segment joins two endpoints only when each is
the other's nearest endpoint, both at squared distance within the squared
gap tolerance, and the number of inserted links never exceeds the link
cap; concretely, with a 0.1 mm tolerance two endpoints 0.05 mm apart are
joined while endpoints 0.5 mm apart are left unjoined. -/
theorem gap_bridging_spec (tol2 : ℚ) (maxLinks : ℤ) (segs : List Seg) :
    (∀ s t, (s, t) ∈ (bridgeGaps tol2 maxLinks segs).2 →
      ∃ (i j : ℕ) (d d' : ℚ),
        nearestIdx (endpointsOf segs) i = some (j, d) ∧
        nearestIdx (endpointsOf segs) j = some (i, d') ∧
        d ≤ tol2 ∧ d' ≤ tol2 ∧
        (endpointsOf segs)[i]? = some s ∧ (endpointsOf segs)[j]? = some t) ∧
    (1 ≤ maxLinks → ((bridgeGaps tol2 maxLinks segs).2.length : ℤ) ≤ maxLinks) ∧
    (bridgeGaps (1/100) 200 [((0, 0), (1, 0)), ((21/20, 0), (2, 0))]).2 =
      [((1, 0), (21/20, 0))] ∧
    (bridgeGaps (1/100) 200 [((0, 0), (1, 0)), ((3/2, 0), (5/2, 0))]).2 = [] := by
  refine ⟨?_, ?_, ?_, ?_⟩
  · intro s t hmem
    unfold bridgeGaps at hmem
    by_cases hnil : segs = []
    · rw [if_pos hnil] at hmem
      simp at hmem
    · rw [if_neg hnil] at hmem
      simp only at hmem
      by_cases hlen : (endpointsOf segs).length < 2
      · rw [if_pos hlen] at hmem
        simp at hmem
      · rw [if_neg hlen] at hmem
        set pts := endpointsOf segs with hpts
        set nearest := nearestList pts with hnear
        set bridged := bridgeLoop pts nearest tol2 maxLinks (enumOf nearest 0) [] []
          with hbr
        by_cases hb : bridged = []
        · rw [if_pos hb] at hmem
          simp at hmem
        · rw [if_neg hb] at hmem
          simp only at hmem
          have hmem' : (s, t) ∈ bridged := hmem
          have htodo : ∀ ie ∈ enumOf nearest 0, nearest[ie.1]? = some ie.2 := by
            intro ie hie
            have := mem_enumOf nearest 0 ie hie
            simpa using this.2
          have hmain := bridgeLoop_mem_spec pts nearest tol2 maxLinks
            (enumOf nearest 0) [] [] htodo (by simp) (s, t) hmem'
          obtain ⟨i, j, d, d', hni, hnj, hd, hd', hpi, hpj⟩ := hmain
          exact ⟨i, j, d, d',
            by rw [nearestList_getElem pts i (some (j, d)) hni],
            by rw [nearestList_getElem pts j (some (i, d')) hnj],
            hd, hd', hpi, hpj⟩
  · intro hcap
    unfold bridgeGaps
    by_cases hnil : segs = []
    · rw [if_pos hnil]; simp; omega
    · rw [if_neg hnil]
      simp only
      by_cases hlen : (endpointsOf segs).length < 2
      · rw [if_pos hlen]; simp; omega
      · rw [if_neg hlen]
        set pts := endpointsOf segs
        set nearest := nearestList pts
        set bridged := bridgeLoop pts nearest tol2 maxLinks (enumOf nearest 0) [] []
          with hbr
        by_cases hb : bridged = []
        · rw [if_pos hb]; simp; omega
        · rw [if_neg hb]
          simp only
          rw [hbr]
          exact bridgeLoop_length_spec pts nearest tol2 maxLinks
            (enumOf nearest 0) [] [] (by omega) (by simpa using hcap)
  · norm_num [bridgeGaps, endpointsOf, nearestList, nearestIdx, nearestScan,
      bridgeLoop, enumOf, dist2, List.range_succ]
    split
    next h => simp at h
    next h => rfl
  · norm_num [bridgeGaps, endpointsOf, nearestList, nearestIdx, nearestScan,
      bridgeLoop, enumOf, dist2, List.range_succ]

/-- Witness for C3: instantiating the mutual-nearest property on the
bridged pair of the 0.05 mm scenario, and the link cap at 200 links. -/
theorem gap_bridging_spec_witness :
    (∃ i j d d',
      nearestIdx (endpointsOf [((0, 0), (1, 0)), ((21/20, 0), (2, 0))]) i = some (j, d) ∧
      nearestIdx (endpointsOf [((0, 0), (1, 0)), ((21/20, 0), (2, 0))]) j = some (i, d') ∧
      d ≤ (1/100 : ℚ) ∧ d' ≤ (1/100 : ℚ) ∧
      (endpointsOf [((0, 0), (1, 0)), ((21/20, 0), (2, 0))])[i]? = some ((1 : ℚ), (0 : ℚ)) ∧
      (endpointsOf [((0, 0), (1, 0)), ((21/20, 0), (2, 0))])[j]? = some ((21/20 : ℚ), (0 : ℚ))) ∧
    ((bridgeGaps (1/100) 200 [((0, 0), (1, 0)), ((21/20, 0), (2, 0))]).2.length : ℤ) ≤ 200 :=
  have h := gap_bridging_spec (1/100) 200 [((0, 0), (1, 0)), ((21/20, 0), (2, 0))]
  ⟨h.1 ((1 : ℚ), (0 : ℚ)) ((21/20 : ℚ), (0 : ℚ)) (by rw [h.2.2.1]; simp),
   h.2.1 (by decide)⟩

/-! ### Theorems for the watertight bounds fit (claim C7) -/

theorem foldl_min_map (f : ℚ → ℚ) (hf : ∀ a b, f (min a b) = min (f a) (f b)) :
    ∀ (xs : List ℚ) (a : ℚ), (xs.map f).foldl min (f a) = f (xs.foldl min a) := by
  intro xs
  induction xs with
  | nil => intro a; simp [List.foldl]
  | cons x t ih =>
      intro a
      simp only [List.map_cons, List.foldl_cons]
      rw [← hf, ih]

theorem foldl_max_map (f : ℚ → ℚ) (hf : ∀ a b, f (max a b) = max (f a) (f b)) :
    ∀ (xs : List ℚ) (a : ℚ), (xs.map f).foldl max (f a) = f (xs.foldl max a) := by
  intro xs
  induction xs with
  | nil => intro a; simp [List.foldl]
  | cons x t ih =>
      intro a
      simp only [List.map_cons, List.foldl_cons]
      rw [← hf, ih]

theorem affine_min_comm (s c lo : ℚ) (hs : 0 ≤ s) (a b : ℚ) :
    (min a b - lo) * s + c = min ((a - lo) * s + c) ((b - lo) * s + c) := by
  rw [← min_sub_sub_right a b lo, min_mul_of_nonneg _ _ hs, min_add_add_right]

theorem affine_max_comm (s c lo : ℚ) (hs : 0 ≤ s) (a b : ℚ) :
    (max a b - lo) * s + c = max ((a - lo) * s + c) ((b - lo) * s + c) := by
  rw [← max_sub_sub_right a b lo, max_mul_of_nonneg _ _ hs, max_add_add_right]

theorem listMin_map_affine (s c lo : ℚ) (hs : 0 ≤ s) (xs : List ℚ) (hne : xs ≠ []) :
    listMin (xs.map (fun x => (x - lo) * s + c)) = (listMin xs - lo) * s + c := by
  cases xs with
  | nil => exact absurd rfl hne
  | cons x t =>
      simp only [List.map_cons, listMin]
      exact foldl_min_map (fun x => (x - lo) * s + c)
        (fun a b => affine_min_comm s c lo hs a b) t x

theorem listMax_map_affine (s c lo : ℚ) (hs : 0 ≤ s) (xs : List ℚ) (hne : xs ≠ []) :
    listMax (xs.map (fun x => (x - lo) * s + c)) = (listMax xs - lo) * s + c := by
  cases xs with
  | nil => exact absurd rfl hne
  | cons x t =>
      simp only [List.map_cons, listMax]
      exact foldl_max_map (fun x => (x - lo) * s + c)
        (fun a b => affine_max_comm s c lo hs a b) t x

theorem fitAxis_bounds (xs : List ℚ) (hne : xs ≠ []) (tlo thi : ℚ)
    (hcur : eps12 < listMax xs - listMin xs) (htgt : 0 < thi - tlo) :
    listMin (xs.map (fun x =>
      (x - listMin xs) * fitScale (listMin xs) (listMax xs) tlo thi + tlo)) = tlo ∧
    listMax (xs.map (fun x =>
      (x - listMin xs) * fitScale (listMin xs) (listMax xs) tlo thi + tlo)) = thi := by
  have hsc : fitScale (listMin xs) (listMax xs) tlo thi =
      (thi - tlo) / (listMax xs - listMin xs) := by
    unfold fitScale
    rw [if_pos ⟨hcur, htgt⟩]
  have hext : 0 < listMax xs - listMin xs := by
    have : (0 : ℚ) < eps12 := by norm_num [eps12]
    linarith
  have hs : 0 ≤ fitScale (listMin xs) (listMax xs) tlo thi := by
    rw [hsc]
    positivity
  constructor
  · rw [listMin_map_affine _ _ _ hs xs hne]
    ring
  · rw [listMax_map_affine _ _ _ hs xs hne, hsc]
    have hne' : listMax xs - listMin xs ≠ 0 := ne_of_gt hext
    field_simp

/-- Counterexample for C7 as stated: a successful rebuild that is
non-empty with strictly positive extents in every axis is *not* always
rescaled onto the pre-rebuild bounding box — a rebuilt x-extent of 1e-13
(positive but below the 1e-12 guard) is left unscaled, and a pre-rebuild
mesh that is flat in x (zero target extent) can never be matched. -/
theorem watertight_fit_counterexample :
    (([((0 : ℚ), (0 : ℚ), (0 : ℚ)), (1/10000000000000, 1, 1)] : List Vec3) ≠ [] ∧
      0 < listMax (xsOf [((0 : ℚ), (0 : ℚ), (0 : ℚ)), (1/10000000000000, 1, 1)]) -
          listMin (xsOf [((0 : ℚ), (0 : ℚ), (0 : ℚ)), (1/10000000000000, 1, 1)]) ∧
      0 < listMax (ysOf [((0 : ℚ), (0 : ℚ), (0 : ℚ)), (1/10000000000000, 1, 1)]) -
          listMin (ysOf [((0 : ℚ), (0 : ℚ), (0 : ℚ)), (1/10000000000000, 1, 1)]) ∧
      0 < listMax (zsOf [((0 : ℚ), (0 : ℚ), (0 : ℚ)), (1/10000000000000, 1, 1)]) -
          listMin (zsOf [((0 : ℚ), (0 : ℚ), (0 : ℚ)), (1/10000000000000, 1, 1)]) ∧
      meshBounds (rebuildWatertightSingle
          [((0 : ℚ), (0 : ℚ), (0 : ℚ)), (2, 2, 2)]
          (Except.ok [((0 : ℚ), (0 : ℚ), (0 : ℚ)), (1/10000000000000, 1, 1)])) ≠
        meshBounds [((0 : ℚ), (0 : ℚ), (0 : ℚ)), (2, 2, 2)]) ∧
    (([((0 : ℚ), (0 : ℚ), (0 : ℚ)), (1, 1, 1)] : List Vec3) ≠ [] ∧
      meshBounds (rebuildWatertightSingle
          [((0 : ℚ), (0 : ℚ), (0 : ℚ)), (0, 2, 2)]
          (Except.ok [((0 : ℚ), (0 : ℚ), (0 : ℚ)), (1, 1, 1)])) ≠
        meshBounds [((0 : ℚ), (0 : ℚ), (0 : ℚ)), (0, 2, 2)]) := by
  constructor
  · refine ⟨by simp, by norm_num [xsOf, listMin, listMax], by norm_num [ysOf, listMin, listMax],
      by norm_num [zsOf, listMin, listMax], ?_⟩
    have hI : meshBounds [((0 : ℚ), (0 : ℚ), (0 : ℚ)), (2, 2, 2)] =
        ((0, 0, 0), (2, 2, 2)) := by
      norm_num [meshBounds, xsOf, ysOf, zsOf, listMin, listMax]
    have hr : rebuildWatertightSingle [((0 : ℚ), (0 : ℚ), (0 : ℚ)), (2, 2, 2)]
        (Except.ok [((0 : ℚ), (0 : ℚ), (0 : ℚ)), (1/10000000000000, 1, 1)]) =
        fitMeshToBounds [((0 : ℚ), (0 : ℚ), (0 : ℚ)), (1/10000000000000, 1, 1)]
          (meshBounds [((0 : ℚ), (0 : ℚ), (0 : ℚ)), (2, 2, 2)]) := by
      show (if ([((0 : ℚ), (0 : ℚ), (0 : ℚ)), (2, 2, 2)] : List Vec3) = [] then
          [((0 : ℚ), (0 : ℚ), (0 : ℚ)), (2, 2, 2)]
        else if ([((0 : ℚ), (0 : ℚ), (0 : ℚ)), (1/10000000000000, 1, 1)] : List Vec3) = []
          then [((0 : ℚ), (0 : ℚ), (0 : ℚ)), (2, 2, 2)]
        else fitMeshToBounds [((0 : ℚ), (0 : ℚ), (0 : ℚ)), (1/10000000000000, 1, 1)]
          (meshBounds [((0 : ℚ), (0 : ℚ), (0 : ℚ)), (2, 2, 2)])) = _
      rw [if_neg (by simp), if_neg (by simp)]
    have hRb : meshBounds [((0 : ℚ), (0 : ℚ), (0 : ℚ)), (1/10000000000000, 1, 1)] =
        ((0, 0, 0), (1/10000000000000, 1, 1)) := by
      norm_num [meshBounds, xsOf, ysOf, zsOf, listMin, listMax]
    have hfit : fitMeshToBounds [((0 : ℚ), (0 : ℚ), (0 : ℚ)), (1/10000000000000, 1, 1)]
        (meshBounds [((0 : ℚ), (0 : ℚ), (0 : ℚ)), (2, 2, 2)]) =
        [((0 : ℚ), (0 : ℚ), (0 : ℚ)), (1/10000000000000, 2, 2)] := by
      rw [fitMeshToBounds, if_neg (by simp), hI, hRb]
      norm_num [fitScale, eps12]
    rw [hr, hfit, hI]
    have hout : meshBounds [((0 : ℚ), (0 : ℚ), (0 : ℚ)), (1/10000000000000, 2, 2)] =
        ((0, 0, 0), (1/10000000000000, 2, 2)) := by
      norm_num [meshBounds, xsOf, ysOf, zsOf, listMin, listMax]
    rw [hout]
    intro hcontra
    have := congrArg (fun b : Vec3 × Vec3 => b.2.1) hcontra
    norm_num at this
  · refine ⟨by simp, ?_⟩
    have hI : meshBounds [((0 : ℚ), (0 : ℚ), (0 : ℚ)), (0, 2, 2)] =
        ((0, 0, 0), (0, 2, 2)) := by
      norm_num [meshBounds, xsOf, ysOf, zsOf, listMin, listMax]
    have hr : rebuildWatertightSingle [((0 : ℚ), (0 : ℚ), (0 : ℚ)), (0, 2, 2)]
        (Except.ok [((0 : ℚ), (0 : ℚ), (0 : ℚ)), (1, 1, 1)]) =
        fitMeshToBounds [((0 : ℚ), (0 : ℚ), (0 : ℚ)), (1, 1, 1)]
          (meshBounds [((0 : ℚ), (0 : ℚ), (0 : ℚ)), (0, 2, 2)]) := by
      show (if ([((0 : ℚ), (0 : ℚ), (0 : ℚ)), (0, 2, 2)] : List Vec3) = [] then
          [((0 : ℚ), (0 : ℚ), (0 : ℚ)), (0, 2, 2)]
        else if ([((0 : ℚ), (0 : ℚ), (0 : ℚ)), (1, 1, 1)] : List Vec3) = []
          then [((0 : ℚ), (0 : ℚ), (0 : ℚ)), (0, 2, 2)]
        else fitMeshToBounds [((0 : ℚ), (0 : ℚ), (0 : ℚ)), (1, 1, 1)]
          (meshBounds [((0 : ℚ), (0 : ℚ), (0 : ℚ)), (0, 2, 2)])) = _
      rw [if_neg (by simp), if_neg (by simp)]
    have hRb : meshBounds [((0 : ℚ), (0 : ℚ), (0 : ℚ)), (1, 1, 1)] =
        ((0, 0, 0), (1, 1, 1)) := by
      norm_num [meshBounds, xsOf, ysOf, zsOf, listMin, listMax]
    have hfit : fitMeshToBounds [((0 : ℚ), (0 : ℚ), (0 : ℚ)), (1, 1, 1)]
        (meshBounds [((0 : ℚ), (0 : ℚ), (0 : ℚ)), (0, 2, 2)]) =
        [((0 : ℚ), (0 : ℚ), (0 : ℚ)), (1, 2, 2)] := by
      rw [fitMeshToBounds, if_neg (by simp), hI, hRb]
      norm_num [fitScale, eps12]
    rw [hr, hfit, hI]
    have hout : meshBounds [((0 : ℚ), (0 : ℚ), (0 : ℚ)), (1, 2, 2)] =
        ((0, 0, 0), (1, 2, 2)) := by
      norm_num [meshBounds, xsOf, ysOf, zsOf, listMin, listMax]
    rw [hout]
    intro hcontra
    have := congrArg (fun b : Vec3 × Vec3 => b.2.1) hcontra
    norm_num at this

/-- C7 (amended): when the single-mesh watertight rebuild succeeds with a
non-empty mesh whose every axis extent exceeds the 1e-12 guard, and the
pre-rebuild mesh has strictly positive extents in every axis, the result
is affinely rescaled so its bounding box equals the pre-rebuild bounding
box exactly. -/
theorem watertight_fit_spec (inputVerts rebuilt : List Vec3) (hreb : rebuilt ≠ [])
    (hx : eps12 < listMax (xsOf rebuilt) - listMin (xsOf rebuilt))
    (hy : eps12 < listMax (ysOf rebuilt) - listMin (ysOf rebuilt))
    (hz : eps12 < listMax (zsOf rebuilt) - listMin (zsOf rebuilt))
    (tx : 0 < listMax (xsOf inputVerts) - listMin (xsOf inputVerts))
    (ty : 0 < listMax (ysOf inputVerts) - listMin (ysOf inputVerts))
    (tz : 0 < listMax (zsOf inputVerts) - listMin (zsOf inputVerts)) :
    meshBounds (rebuildWatertightSingle inputVerts (Except.ok rebuilt)) =
      meshBounds inputVerts := by
  have hin : inputVerts ≠ [] := by
    intro h
    rw [h] at tx
    norm_num [xsOf, listMin, listMax] at tx
  have hxs : xsOf rebuilt ≠ [] := by
    intro h
    rw [h] at hx
    norm_num [listMin, listMax, eps12] at hx
  have hys : ysOf rebuilt ≠ [] := by
    intro h
    rw [h] at hy
    norm_num [listMin, listMax, eps12] at hy
  have hzs : zsOf rebuilt ≠ [] := by
    intro h
    rw [h] at hz
    norm_num [listMin, listMax, eps12] at hz
  have hstep : rebuildWatertightSingle inputVerts (Except.ok rebuilt) =
      rebuilt.map (fun v =>
        ((fun x => (x - listMin (xsOf rebuilt)) *
            fitScale (listMin (xsOf rebuilt)) (listMax (xsOf rebuilt))
              (listMin (xsOf inputVerts)) (listMax (xsOf inputVerts)) +
            listMin (xsOf inputVerts)) v.1,
         (fun x => (x - listMin (ysOf rebuilt)) *
            fitScale (listMin (ysOf rebuilt)) (listMax (ysOf rebuilt))
              (listMin (ysOf inputVerts)) (listMax (ysOf inputVerts)) +
            listMin (ysOf inputVerts)) v.2.1,
         (fun x => (x - listMin (zsOf rebuilt)) *
            fitScale (listMin (zsOf rebuilt)) (listMax (zsOf rebuilt))
              (listMin (zsOf inputVerts)) (listMax (zsOf inputVerts)) +
            listMin (zsOf inputVerts)) v.2.2)) := by
    show (if inputVerts = [] then inputVerts
      else if rebuilt = [] then inputVerts
      else if rebuilt = [] then rebuilt
      else rebuilt.map (fun v =>
        ((fun x => (x - listMin (xsOf rebuilt)) *
            fitScale (listMin (xsOf rebuilt)) (listMax (xsOf rebuilt))
              (listMin (xsOf inputVerts)) (listMax (xsOf inputVerts)) +
            listMin (xsOf inputVerts)) v.1,
         (fun x => (x - listMin (ysOf rebuilt)) *
            fitScale (listMin (ysOf rebuilt)) (listMax (ysOf rebuilt))
              (listMin (ysOf inputVerts)) (listMax (ysOf inputVerts)) +
            listMin (ysOf inputVerts)) v.2.1,
         (fun x => (x - listMin (zsOf rebuilt)) *
            fitScale (listMin (zsOf rebuilt)) (listMax (zsOf rebuilt))
              (listMin (zsOf inputVerts)) (listMax (zsOf inputVerts)) +
            listMin (zsOf inputVerts)) v.2.2))) = _
    rw [if_neg hin, if_neg hreb, if_neg hreb]
  have hax := fitAxis_bounds (xsOf rebuilt) hxs
    (listMin (xsOf inputVerts)) (listMax (xsOf inputVerts)) hx tx
  have hay := fitAxis_bounds (ysOf rebuilt) hys
    (listMin (ysOf inputVerts)) (listMax (ysOf inputVerts)) hy ty
  have haz := fitAxis_bounds (zsOf rebuilt) hzs
    (listMin (zsOf inputVerts)) (listMax (zsOf inputVerts)) hz tz
  have hmb : meshBounds (rebuilt.map (fun v =>
        ((fun x => (x - listMin (xsOf rebuilt)) *
            fitScale (listMin (xsOf rebuilt)) (listMax (xsOf rebuilt))
              (listMin (xsOf inputVerts)) (listMax (xsOf inputVerts)) +
            listMin (xsOf inputVerts)) v.1,
         (fun x => (x - listMin (ysOf rebuilt)) *
            fitScale (listMin (ysOf rebuilt)) (listMax (ysOf rebuilt))
              (listMin (ysOf inputVerts)) (listMax (ysOf inputVerts)) +
            listMin (ysOf inputVerts)) v.2.1,
         (fun x => (x - listMin (zsOf rebuilt)) *
            fitScale (listMin (zsOf rebuilt)) (listMax (zsOf rebuilt))
              (listMin (zsOf inputVerts)) (listMax (zsOf inputVerts)) +
            listMin (zsOf inputVerts)) v.2.2))) =
      ((listMin ((xsOf rebuilt).map (fun x => (x - listMin (xsOf rebuilt)) *
            fitScale (listMin (xsOf rebuilt)) (listMax (xsOf rebuilt))
              (listMin (xsOf inputVerts)) (listMax (xsOf inputVerts)) +
            listMin (xsOf inputVerts))),
        listMin ((ysOf rebuilt).map (fun x => (x - listMin (ysOf rebuilt)) *
            fitScale (listMin (ysOf rebuilt)) (listMax (ysOf rebuilt))
              (listMin (ysOf inputVerts)) (listMax (ysOf inputVerts)) +
            listMin (ysOf inputVerts))),
        listMin ((zsOf rebuilt).map (fun x => (x - listMin (zsOf rebuilt)) *
            fitScale (listMin (zsOf rebuilt)) (listMax (zsOf rebuilt))
              (listMin (zsOf inputVerts)) (listMax (zsOf inputVerts)) +
            listMin (zsOf inputVerts)))),
       (listMax ((xsOf rebuilt).map (fun x => (x - listMin (xsOf rebuilt)) *
            fitScale (listMin (xsOf rebuilt)) (listMax (xsOf rebuilt))
              (listMin (xsOf inputVerts)) (listMax (xsOf inputVerts)) +
            listMin (xsOf inputVerts))),
        listMax ((ysOf rebuilt).map (fun x => (x - listMin (ysOf rebuilt)) *
            fitScale (listMin (ysOf rebuilt)) (listMax (ysOf rebuilt))
              (listMin (ysOf inputVerts)) (listMax (ysOf inputVerts)) +
            listMin (ysOf inputVerts))),
        listMax ((zsOf rebuilt).map (fun x => (x - listMin (zsOf rebuilt)) *
            fitScale (listMin (zsOf rebuilt)) (listMax (zsOf rebuilt))
              (listMin (zsOf inputVerts)) (listMax (zsOf inputVerts)) +
            listMin (zsOf inputVerts))))) := by
    unfold meshBounds
    simp only [xsOf, ysOf, zsOf, List.map_map]
    rfl
  rw [hstep, hmb, hax.1, hax.2, hay.1, hay.2, haz.1, haz.2]
  rfl

/-- Witness for C7 (amended): a unit-cube rebuild of a 2 mm cube is
rescaled exactly onto the 2 mm bounding box. -/
theorem watertight_fit_spec_witness :
    meshBounds (rebuildWatertightSingle
        [((0 : ℚ), (0 : ℚ), (0 : ℚ)), (2, 2, 2)]
        (Except.ok [((0 : ℚ), (0 : ℚ), (0 : ℚ)), (1, 1, 1)])) =
      meshBounds [((0 : ℚ), (0 : ℚ), (0 : ℚ)), (2, 2, 2)] :=
  watertight_fit_spec [((0 : ℚ), (0 : ℚ), (0 : ℚ)), (2, 2, 2)]
    [((0 : ℚ), (0 : ℚ), (0 : ℚ)), (1, 1, 1)] (by simp)
    (by norm_num [xsOf, listMin, listMax, eps12])
    (by norm_num [ysOf, listMin, listMax, eps12])
    (by norm_num [zsOf, listMin, listMax, eps12])
    (by norm_num [xsOf, listMin, listMax])
    (by norm_num [ysOf, listMin, listMax])
    (by norm_num [zsOf, listMin, listMax])

/-- Witness for C9: with a non-empty mesh that is *not* watertight, a
positive file size, and a successful reload with faces, the export
validation succeeds; the outcome matches the watertight run. -/
theorem export_validation_spec_witness :
    (isError (exportValidate 12 false 8400 (Except.ok 12)) = true ↔
      ((8400 : ℤ) ≤ 0 ∨ isError (Except.ok (ε := String) 12) = true ∨
        (Except.ok 12 : Except String ℕ) = Except.ok 0)) ∧
    exportValidate 12 false 8400 (Except.ok 12) =
      exportValidate 12 true 8400 (Except.ok 12) :=
  export_validation_spec 12 false true 8400 (Except.ok 12) (by decide)

end StencilForge
